import Mathlib

/-!
Shallow embedding of `app.py` (movie-recommendation web service).

The program loads two CSV tables (`movies_100k.csv`, `ratings_100k.csv`),
renames/retypes the join keys, inner-joins them on `movieId`, coerces the
`rating` column to numeric, builds a user×title pivot table, and serves
either a popularity ranking (`get_top_rated_movies`) or item-based
correlation recommendations (`get_recommendations`).

Ratings are modelled as exact rationals; a pandas `NaN` is `Option.none`.
Pearson correlations live in `ℝ` (they involve a square root).
-/

namespace MovieRec

/-- A raw cell of the `rating` column before `pd.to_numeric`:
either a numeric value or something non-numeric / missing. -/
inductive Cell where
  | num (q : ℚ)
  | invalid
deriving DecidableEq, Repr

/-- Model of `pd.to_numeric(..., errors='coerce')` (app.py line 39):
numeric values pass through, invalid values become missing. -/
def toNumericCoerce : Cell → Option ℚ
  | .num q => some q
  | .invalid => none

/-- A row of the movies table after the renames and `astype(str)`
(app.py lines 18 and 21): columns `movieId`, `title`. -/
structure MovieRow where
  movieId : String
  title : String
deriving DecidableEq, Repr

/-- A row of the ratings table after `astype(str)` on `movieId`
(app.py line 29): columns `userId`, `movieId`, `rating`. -/
structure RatingRow where
  userId : String
  movieId : String
  rating : Cell
deriving DecidableEq, Repr

/-- The two loaded tables. -/
structure Dataset where
  movies : List MovieRow
  ratings : List RatingRow

/-- A row of the joined table `data`; `R` is the type of the rating
column (a raw `Cell` right after the merge, `Option ℚ` after coercion). -/
structure DataRow (R : Type) where
  userId : String
  movieId : String
  rating : R
  title : String
deriving DecidableEq, Repr

/-- Model of `pd.merge(ratings, movies, on='movieId')` (app.py line 34): inner join;
each ratings row is paired with every movies row carrying the same
`movieId`, left order preserved. -/
def mergeOnMovieId (ratings : List RatingRow) (movies : List MovieRow) :
    List (DataRow Cell) :=
  ratings.flatMap fun r =>
    (movies.filter fun m => m.movieId = r.movieId).map fun m =>
      ⟨r.userId, r.movieId, r.rating, m.title⟩

/-- The joined table `data` after the numeric coercion of its rating
column (app.py lines 34 and 39). -/
def data (D : Dataset) : List (DataRow (Option ℚ)) :=
  (mergeOnMovieId D.ratings D.movies).map fun row =>
    ⟨row.userId, row.movieId, toNumericCoerce row.rating, row.title⟩

/-! ### A stable insertion sort (pandas sorts group keys / values) -/


/-- Insert `a` in front of the first element `b` with `le a b`. -/
def insertBy (le : α → α → Bool) (a : α) : List α → List α
  | [] => [a]
  | b :: bs => if le a b then a :: b :: bs else b :: insertBy le a bs

/-- Insertion sort with comparator `le` (`le a b` = `a` may precede `b`). -/
def sortBy (le : α → α → Bool) : List α → List α
  | [] => []
  | a :: as => insertBy le a (sortBy le as)

/-- Lexicographic comparison of character lists by code point — the
ordering Python and pandas use on `str` keys. -/
def lexLe : List Char → List Char → Bool
  | [], _ => true
  | _ :: _, [] => false
  | a :: as, b :: bs =>
      if a.toNat < b.toNat then true
      else if b.toNat < a.toNat then false
      else lexLe as bs

/-- Code-point comparison of strings. -/
def strLe (a b : String) : Bool := lexLe a.data b.data

/-- Distinct values of a string column, sorted ascending (pandas `groupby`
sorts its keys; `pivot_table` sorts its axes). -/
def sortedKeys (l : List String) : List String :=
  sortBy strLe l.dedup

/-! ### `get_top_rated_movies` (app.py lines 50-60) -/


/-- The group keys of `data.groupby('title')`. -/
def titlesOf (d : List (DataRow (Option ℚ))) : List String :=
  sortedKeys (d.map (·.title))

/-- The non-missing ratings of a title in the joined data. -/
def validRatings (d : List (DataRow (Option ℚ))) (t : String) : List ℚ :=
  (d.filter fun r => r.title = t).filterMap (·.rating)

/-- Model of `groupby('title')['rating'].count()`: number of non-missing ratings. -/
def countOf (d : List (DataRow (Option ℚ))) (t : String) : ℕ :=
  (validRatings d t).length

/-- Model of `groupby('title')['rating'].mean()`: mean of the non-missing ratings
(only used on groups that passed the `count > 10` filter). -/
def meanOf (d : List (DataRow (Option ℚ))) (t : String) : ℚ :=
  (validRatings d t).sum / countOf d t

/-- Model of `get_top_rated_movies(n)` (app.py lines 50-60): per-title count/mean
aggregation, filter `count > 10`, sort by mean descending, first `n`
titles. -/
def get_top_rated_movies (D : Dataset) (n : ℕ) : List String :=
  let d := data D
  let rating_stats := (titlesOf d).map fun t => (t, countOf d t, meanOf d t)
  let popular_movies := rating_stats.filter fun s => decide (10 < s.2.1)
  let top_movies :=
    (sortBy (fun a b => decide (b.2.2 ≤ a.2.2)) popular_movies).take n
  top_movies.map (·.1)

/-- Modelled from the words of claim C1: keep the titles whose rating
count exceeds the popularity threshold 10, sort them by mean rating in
descending order, return the first `n`. -/
def get_top_rated_movies_spec (D : Dataset) (n : ℕ) : List String :=
  let d := data D
  let kept := (titlesOf d).filter fun t => decide (10 < countOf d t)
  (sortBy (fun a b => decide (meanOf d b ≤ meanOf d a)) kept).take n

/-! ### The pivot table `user_movie_rating` (app.py line 43) -/


/-- The non-missing ratings user `u` gave to title `t` in the joined data. -/
def userRatings (d : List (DataRow (Option ℚ))) (u t : String) : List ℚ :=
  ((d.filter fun r => decide (r.userId = u ∧ r.title = t)).filterMap (·.rating))

/-- One cell of `data.pivot_table(index='userId', columns='title',
values='rating')` with the default `mean` aggregation: the mean of the
user's non-missing ratings of the title, missing when there are none. -/
def cellOf (d : List (DataRow (Option ℚ))) (u t : String) : Option ℚ :=
  if userRatings d u t = [] then none
  else some ((userRatings d u t).sum / (userRatings d u t).length)

/-- The columns of the pivot table, sorted: the titles with at least one
non-missing rating (`pivot_table` drops all-`NaN` aggregates before
unstacking, so a title rated only with non-numeric values gets no
column). -/
def matrixColumns (d : List (DataRow (Option ℚ))) : List String :=
  sortedKeys ((d.filter fun r => r.rating.isSome).map (·.title))

/-- The rows (userIds) of the pivot table, sorted: the users with at
least one non-missing rating. -/
def matrixRows (d : List (DataRow (Option ℚ))) : List String :=
  sortedKeys ((d.filter fun r => r.rating.isSome).map (·.userId))

/-! ### `get_recommendations` (app.py lines 62-82) -/


/-- The pairs of cell values shared by columns `s` and `t`: the rows
(users) where both titles have a value — the pairwise-complete
observations that pandas correlates. -/
def commonPairs (d : List (DataRow (Option ℚ))) (s t : String) :
    List (ℚ × ℚ) :=
  (matrixRows d).filterMap fun u =>
    match cellOf d u s, cellOf d u t with
    | some a, some b => some (a, b)
    | _, _ => none

/-- The quantity `n·Σxy − Σx·Σy` over the paired observations. -/
def corrNum (ps : List (ℚ × ℚ)) : ℚ :=
  ps.length * (ps.map fun p => p.1 * p.2).sum -
    (ps.map Prod.fst).sum * (ps.map Prod.snd).sum

/-- The quantity `n·Σx² − (Σx)²` over the paired observations. -/
def corrDenX (ps : List (ℚ × ℚ)) : ℚ :=
  ps.length * (ps.map fun p => p.1 * p.1).sum - (ps.map Prod.fst).sum ^ 2

/-- The quantity `n·Σy² − (Σy)²` over the paired observations. -/
def corrDenY (ps : List (ℚ × ℚ)) : ℚ :=
  ps.length * (ps.map fun p => p.2 * p.2).sum - (ps.map Prod.snd).sum ^ 2

/-- Pearson correlation of the paired observations; `none` (pandas `NaN`)
when either coordinate is constant on the common support — which covers
fewer than two common observations. -/
noncomputable def pearson (ps : List (ℚ × ℚ)) : Option ℝ :=
  if corrDenX ps = 0 ∨ corrDenY ps = 0 then none
  else some ((corrNum ps : ℝ) /
    Real.sqrt ((corrDenX ps : ℝ) * (corrDenY ps : ℝ)))

/-- Model of `user_movie_rating.corrwith(user_movie_rating[movie_title])`
(app.py line 71): each column of the pivot table correlated with the
selected title's column. -/
noncomputable def corrwith (d : List (DataRow (Option ℚ))) (t : String) :
    List (String × Option ℝ) :=
  (matrixColumns d).map fun s => (s, pearson (commonPairs d s t))

/-- Value of a pandas Series at a key; a key that is absent and a key
holding `NaN` are both "missing". -/
def seriesGet (s : List (String × Option ℝ)) (k : String) : Option ℝ :=
  match s.find? (fun p => p.1 == k) with
  | some p => p.2
  | none => none

/-- Addition with `fill_value=0`: a value missing on one side counts as 0,
a value missing on both sides stays missing. -/
noncomputable def optAdd : Option ℝ → Option ℝ → Option ℝ
  | none, none => none
  | x, y => some (x.getD 0 + y.getD 0)

/-- Model of `Series.add(other, fill_value=0)` (app.py line 74): align the two
indexes to their (sorted, deduplicated) union and add with
`fill_value=0`. -/
noncomputable def seriesAdd (s1 s2 : List (String × Option ℝ)) :
    List (String × Option ℝ) :=
  (sortedKeys (s1.map Prod.fst ++ s2.map Prod.fst)).map fun k =>
    (k, optAdd (seriesGet s1 k) (seriesGet s2 k))

/-- The `sort_values(ascending=False)` comparator on Series values: larger
values first, missing values (`NaN`) last. -/
noncomputable def scoreGe (x y : Option ℝ) : Bool :=
  match x, y with
  | some a, some b => decide (b ≤ a)
  | some _, none => true
  | none, some _ => false
  | none, none => true

/-- Model of `get_recommendations(selected_movies, n)` (app.py lines 62-82): add up
the correlation series of every selected title present among the pivot
columns, sort by score descending, drop the selected titles, return the
first `n` index labels. -/
noncomputable def get_recommendations (D : Dataset)
    (selected_movies : List String) (n : ℕ) : List String :=
  let d := data D
  let similar_scores := selected_movies.foldl
    (fun acc movie_title =>
      if movie_title ∈ matrixColumns d
      then seriesAdd acc (corrwith d movie_title)
      else acc) []
  let recommendations := sortBy (fun a b => scoreGe a.2 b.2) similar_scores
  let recommendations :=
    recommendations.filter fun p => decide (p.1 ∉ selected_movies)
  (recommendations.take n).map Prod.fst

/-- The non-empty submitted form fields, in order (app.py line 102:
`[m for m in [movie1, movie2, movie3] if m]`; Python truthiness drops
both `None` and the empty string). -/
def nonEmptyFields (ms : List (Option String)) : List String :=
  (ms.filterMap id).filter fun m => decide (m ≠ "")

/-- Model of the `/recommend` handler (app.py lines 95-113): collect the
non-empty form fields; with none selected serve the popularity ranking,
otherwise serve recommendations for the selected titles (both with the
default n = 5). -/
noncomputable def recommend (D : Dataset)
    (movie1 movie2 movie3 : Option String) : List String :=
  let selected := nonEmptyFields [movie1, movie2, movie3]
  if selected = [] then get_top_rated_movies D 5
  else get_recommendations D selected 5

/-- Result of one `pd.read_csv` attempt: a parsed table, or a
`UnicodeDecodeError` raised while decoding the file. -/
inductive ReadResult (α : Type) where
  | ok (t : α)
  | unicodeDecodeError
deriving DecidableEq

/-- Model of the movies load (app.py lines 12-15): read as utf-8 and, if
that raises `UnicodeDecodeError`, retry as cp932.  `readCsv` maps an
encoding name to the outcome of reading `movies_100k.csv` with it. -/
def loadMovies (readCsv : String → ReadResult (List MovieRow)) :
    ReadResult (List MovieRow) :=
  match readCsv "utf-8" with
  | .ok t => .ok t
  | .unicodeDecodeError => readCsv "cp932"

/-- An environment in which the file only decodes as cp932. -/
def cp932Env : String → ReadResult (List MovieRow) := fun enc =>
  if enc = "cp932" then .ok [⟨"1", "A"⟩] else .unicodeDecodeError

/-- A small concrete dataset: titles `A`, `B`, `C` over users `u1`, `u2`;
`B` is perfectly anti-correlated with `A`, and `C` has constant ratings,
so its correlation with `A` is undefined (`NaN`). -/
def Dex : Dataset :=
  ⟨[⟨"1", "A"⟩, ⟨"2", "B"⟩, ⟨"3", "C"⟩],
   [⟨"u1", "1", Cell.num 1⟩, ⟨"u2", "1", Cell.num 2⟩,
    ⟨"u1", "2", Cell.num 2⟩, ⟨"u2", "2", Cell.num 1⟩,
    ⟨"u1", "3", Cell.num 3⟩, ⟨"u2", "3", Cell.num 3⟩]⟩

/-! ### C2: the claimed and the amended description of
`get_recommendations` -/


/-- Modelled from the words of claim C2: for each selected title that is a
column of the rating matrix, correlate every column with it; sum these
per-title correlation series element-wise with missing entries counted as
0; sort the summed scores descending; remove the selected titles; return
the first `n` titles. -/
noncomputable def get_recommendations_spec (D : Dataset)
    (selected_movies : List String) (n : ℕ) : List String :=
  let d := data D
  let valid := selected_movies.filter fun t => decide (t ∈ matrixColumns d)
  let scores : List (String × Option ℝ) :=
    if valid = [] then []
    else (matrixColumns d).map fun k =>
      (k, some ((valid.map fun t =>
        (pearson (commonPairs d k t)).getD 0).sum))
  let recommendations := sortBy (fun a b => scoreGe a.2 b.2) scores
  let recommendations :=
    recommendations.filter fun p => decide (p.1 ∉ selected_movies)
  (recommendations.take n).map Prod.fst

/-- The amended description of `get_recommendations`: as in the claim,
except that a title whose correlation is missing for every valid selected
title keeps a missing score (it is not counted as 0), and missing scores
sort after all numeric scores. -/
noncomputable def get_recommendations_amended (D : Dataset)
    (selected_movies : List String) (n : ℕ) : List String :=
  let d := data D
  let valid := selected_movies.filter fun t => decide (t ∈ matrixColumns d)
  let scores : List (String × Option ℝ) :=
    if valid = [] then []
    else (matrixColumns d).map fun k =>
      (k, if valid.all fun t => (pearson (commonPairs d k t)).isNone
          then none
          else some ((valid.map fun t =>
            (pearson (commonPairs d k t)).getD 0).sum))
  let recommendations := sortBy (fun a b => scoreGe a.2 b.2) scores
  let recommendations :=
    recommendations.filter fun p => decide (p.1 ∉ selected_movies)
  (recommendations.take n).map Prod.fst

/-! ### Lemmas about `insertBy` / `sortBy` -/

theorem mem_insertBy (le : α → α → Bool) (a x : α) (l : List α) :
    x ∈ insertBy le a l ↔ x = a ∨ x ∈ l := by
  induction l with
  | nil => simp [insertBy]
  | cons b bs ih =>
      by_cases h : le a b = true
      · simp [insertBy, h]
      · simp only [insertBy, h, if_neg, Bool.not_eq_true, if_false,
          List.mem_cons, ih]
        tauto

theorem mem_sortBy (le : α → α → Bool) (x : α) (l : List α) :
    x ∈ sortBy le l ↔ x ∈ l := by
  induction l with
  | nil => simp [sortBy]
  | cons a as ih => simp [sortBy, mem_insertBy, ih]

theorem length_insertBy (le : α → α → Bool) (a : α) (l : List α) :
    (insertBy le a l).length = l.length + 1 := by
  induction l with
  | nil => simp [insertBy]
  | cons b bs ih =>
      by_cases h : le a b = true <;> simp [insertBy, h, ih]

theorem length_sortBy (le : α → α → Bool) (l : List α) :
    (sortBy le l).length = l.length := by
  induction l with
  | nil => rfl
  | cons a as ih => simp [sortBy, length_insertBy, ih]

theorem insertBy_map (f : α → β) (leB : β → β → Bool) (leA : α → α → Bool)
    (h : ∀ a b, leB (f a) (f b) = leA a b) (a : α) (l : List α) :
    insertBy leB (f a) (l.map f) = (insertBy leA a l).map f := by
  induction l with
  | nil => simp [insertBy]
  | cons b bs ih =>
      by_cases hc : leA a b = true
      · simp [insertBy, h, hc]
      · simp [insertBy, h, hc, ih]

theorem sortBy_map (f : α → β) (leB : β → β → Bool) (leA : α → α → Bool)
    (h : ∀ a b, leB (f a) (f b) = leA a b) (l : List α) :
    sortBy leB (l.map f) = (sortBy leA l).map f := by
  induction l with
  | nil => rfl
  | cons a as ih => simp [sortBy, ih, insertBy_map f leB leA h]

theorem filter_map_comm (f : α → β) (p : β → Bool) (l : List α) :
    (l.map f).filter p = (l.filter fun a => p (f a)).map f := by
  induction l with
  | nil => rfl
  | cons a as ih =>
      by_cases h : p (f a) = true <;> simp [h, ih]

/-! ### Claim theorems about the popularity ranking and the join -/


/-- C1: `get_top_rated_movies n` is exactly the group-by pipeline the spec
describes — group by title, aggregate count and mean, keep count > 10,
sort by mean descending, take the first `n` — and returns at most `n`
titles. -/
theorem c1_top_rated_refines_spec (D : Dataset) (n : ℕ) :
    get_top_rated_movies D n = get_top_rated_movies_spec D n ∧
    (get_top_rated_movies D n).length ≤ n := by
  constructor
  · unfold get_top_rated_movies get_top_rated_movies_spec
    simp only
    rw [filter_map_comm (fun t => (t, countOf (data D) t, meanOf (data D) t))
        (fun s => decide (10 < s.2.1)) (titlesOf (data D))]
    rw [sortBy_map (fun t => (t, countOf (data D) t, meanOf (data D) t))
        (fun a b => decide (b.2.2 ≤ a.2.2))
        (fun a b => decide (meanOf (data D) b ≤ meanOf (data D) a))
        (fun _ _ => rfl)]
    rw [← List.map_take, List.map_map]
    have hid : ((fun x : String × ℕ × ℚ => x.1) ∘
        fun t => (t, countOf (data D) t, meanOf (data D) t)) = id := rfl
    rw [hid, List.map_id]
  · unfold get_top_rated_movies
    simp only [List.length_map, List.length_take]
    exact min_le_left _ _

/-- C10: every title returned by `get_top_rated_movies` has strictly more
than 10 (non-missing) ratings in the joined data, hence strictly more than
10 rating rows; a movie with exactly 10 ratings can never appear. -/
theorem c10_returned_titles_have_more_than_ten_ratings
    (D : Dataset) (n : ℕ) (t : String)
    (h : t ∈ get_top_rated_movies D n) :
    10 < countOf (data D) t ∧
    10 < ((data D).filter fun r => r.title = t).length := by
  unfold get_top_rated_movies at h
  simp only [List.mem_map] at h
  obtain ⟨s, hs, hst⟩ := h
  have hs' := List.mem_of_mem_take hs
  rw [mem_sortBy] at hs'
  rw [List.mem_filter] at hs'
  obtain ⟨hmem, hcount⟩ := hs'
  simp only [List.mem_map] at hmem
  obtain ⟨t', _, ht'⟩ := hmem
  have hteq : t' = t := by
    have := congrArg Prod.fst ht'
    simpa [hst] using this
  subst hteq
  have hcnt : 10 < countOf (data D) t' := by
    have := congrArg (fun p => p.2.1) ht'
    simp only at this
    rw [← this] at hcount
    exact of_decide_eq_true hcount
  refine ⟨hcnt, lt_of_lt_of_le hcnt ?_⟩
  unfold countOf validRatings
  exact List.length_filterMap_le _ _

/-- C10 witness: a concrete dataset with one movie rated 11 times; the
movie is returned and indeed has more than 10 ratings. -/
theorem c10_witness :
    "Star" ∈ get_top_rated_movies
      ⟨[⟨"1", "Star"⟩],
       (List.range 11).map fun i => ⟨toString i, "1", Cell.num 5⟩⟩ 1 ∧
    10 < countOf (data
      ⟨[⟨"1", "Star"⟩],
       (List.range 11).map fun i => ⟨toString i, "1", Cell.num 5⟩⟩) "Star" := by
  have h : "Star" ∈ get_top_rated_movies
      ⟨[⟨"1", "Star"⟩],
       (List.range 11).map fun i => ⟨toString i, "1", Cell.num 5⟩⟩ 1 := by decide
  exact ⟨h, (c10_returned_titles_have_more_than_ten_ratings _ 1 "Star" h).1⟩

/-- C4: the join is the inner join on `movieId` — a row is in `data` iff it
pairs a ratings row with a movies row sharing its `movieId`, and a ratings
row whose `movieId` matches no movies row contributes nothing. -/
theorem c4_inner_join_on_movieId (D : Dataset) (row : DataRow (Option ℚ)) :
    (row ∈ data D ↔ ∃ r ∈ D.ratings, ∃ m ∈ D.movies,
        m.movieId = r.movieId ∧
        row = ⟨r.userId, r.movieId, toNumericCoerce r.rating, m.title⟩) ∧
    (∀ mid : String, (∀ m ∈ D.movies, m.movieId ≠ mid) →
        row ∈ data D → row.movieId ≠ mid) := by
  have hchar : row ∈ data D ↔ ∃ r ∈ D.ratings, ∃ m ∈ D.movies,
      m.movieId = r.movieId ∧
      row = ⟨r.userId, r.movieId, toNumericCoerce r.rating, m.title⟩ := by
    constructor
    · intro hmem
      obtain ⟨x, hx, hfx⟩ := List.mem_map.1 hmem
      obtain ⟨r, hr, hxr⟩ := List.mem_flatMap.1 hx
      obtain ⟨m, hm', hqm⟩ := List.mem_map.1 hxr
      obtain ⟨hm, hp⟩ := List.mem_filter.1 hm'
      refine ⟨r, hr, m, hm, of_decide_eq_true hp, ?_⟩
      rw [← hfx, ← hqm]
    · rintro ⟨r, hr, m, hm, hmid, hrow⟩
      apply List.mem_map.2
      refine ⟨⟨r.userId, r.movieId, r.rating, m.title⟩, ?_, hrow.symm⟩
      apply List.mem_flatMap.2
      refine ⟨r, hr, List.mem_map.2 ⟨m, List.mem_filter.2 ⟨hm, ?_⟩, rfl⟩⟩
      exact decide_eq_true hmid
  refine ⟨hchar, ?_⟩
  intro mid hnone hmem hcontra
  obtain ⟨r, _, m, hm, hmid, hrow⟩ := hchar.1 hmem
  apply hnone m hm
  rw [hmid, ← hcontra, hrow]

/-- C4 witness: concrete data — the matching ratings row appears joined
with its title, and a ratings row with an unmatched `movieId` leaves no
trace in the joined data. -/
theorem c4_witness :
    ((⟨"u1", "1", some 4, "Star"⟩ : DataRow (Option ℚ)) ∈
      data ⟨[⟨"1", "Star"⟩],
            [⟨"u1", "1", Cell.num 4⟩, ⟨"u2", "99", Cell.num 5⟩]⟩) ∧
    (∀ row ∈ data ⟨[⟨"1", "Star"⟩],
            [⟨"u1", "1", Cell.num 4⟩, ⟨"u2", "99", Cell.num 5⟩]⟩,
      row.movieId ≠ "99") := by
  constructor
  · exact ((c4_inner_join_on_movieId _ _).1).2
      ⟨⟨"u1", "1", Cell.num 4⟩, by decide, ⟨"1", "Star"⟩, by decide,
        by decide, rfl⟩
  · intro row hrow
    exact (c4_inner_join_on_movieId _ row).2 "99" (by decide) hrow

theorem mem_sortedKeys (x : String) (l : List String) :
    x ∈ sortedKeys l ↔ x ∈ l := by
  unfold sortedKeys
  rw [mem_sortBy, List.mem_dedup]

/-- C5 counterexample: a dataset whose single rating is non-numeric.  The
title `X` occurs in the joined data, yet the pivot table has no column
for it — `pivot_table` drops the all-`NaN` aggregate — so the matrix does
not have one column per movie title of the joined data. -/
theorem c5_counterexample :
    "X" ∈ (data ⟨[⟨"1", "X"⟩], [⟨"u1", "1", Cell.invalid⟩]⟩).map (·.title) ∧
    "X" ∉ matrixColumns (data ⟨[⟨"1", "X"⟩], [⟨"u1", "1", Cell.invalid⟩]⟩) := by
  decide

/-- C5 (amended): the pivot table has one row per userId with a numeric
rating and one column per title with a numeric rating; a cell holds the
mean of the user's numeric ratings of the title (their rating itself when
they rated it once) and is missing whenever the user did not rate the
title. -/
theorem c5_pivot_table_structure (D : Dataset) (u t : String) :
    (t ∈ matrixColumns (data D) ↔
      ∃ row ∈ data D, row.title = t ∧ row.rating.isSome) ∧
    (u ∈ matrixRows (data D) ↔
      ∃ row ∈ data D, row.userId = u ∧ row.rating.isSome) ∧
    ((data D).filter (fun r => decide (r.userId = u ∧ r.title = t)) = [] →
      cellOf (data D) u t = none) ∧
    (∀ q : ℚ, userRatings (data D) u t = [q] → cellOf (data D) u t = some q) ∧
    (userRatings (data D) u t ≠ [] →
      cellOf (data D) u t =
        some ((userRatings (data D) u t).sum /
          (userRatings (data D) u t).length)) := by
  refine ⟨?_, ?_, ?_, ?_, ?_⟩
  · rw [matrixColumns, mem_sortedKeys]
    constructor
    · intro h
      obtain ⟨row, hrow, hrt⟩ := List.mem_map.1 h
      obtain ⟨hmem, hsome⟩ := List.mem_filter.1 hrow
      exact ⟨row, hmem, hrt, hsome⟩
    · rintro ⟨row, hmem, hrt, hsome⟩
      exact List.mem_map.2 ⟨row, List.mem_filter.2 ⟨hmem, hsome⟩, hrt⟩
  · rw [matrixRows, mem_sortedKeys]
    constructor
    · intro h
      obtain ⟨row, hrow, hrt⟩ := List.mem_map.1 h
      obtain ⟨hmem, hsome⟩ := List.mem_filter.1 hrow
      exact ⟨row, hmem, hrt, hsome⟩
    · rintro ⟨row, hmem, hrt, hsome⟩
      exact List.mem_map.2 ⟨row, List.mem_filter.2 ⟨hmem, hsome⟩, hrt⟩
  · intro h
    unfold cellOf userRatings
    rw [h]
    simp
  · intro q h
    unfold cellOf
    rw [h]
    simp
  · intro h
    unfold cellOf
    rw [if_neg h]

/-- C5 witness: on a concrete dataset, the title with a numeric rating is
a column, the all-invalid user has no row, the cell of an existing
(user, title) pair is the single given rating, and a user who did not
rate a title has a missing cell. -/
theorem c5_witness :
    ("Star" ∈ matrixColumns (data ⟨[⟨"1", "Star"⟩],
        [⟨"u1", "1", Cell.num 4⟩, ⟨"u2", "1", Cell.invalid⟩]⟩)) ∧
    (cellOf (data ⟨[⟨"1", "Star"⟩],
        [⟨"u1", "1", Cell.num 4⟩, ⟨"u2", "1", Cell.invalid⟩]⟩) "u1" "Star"
      = some 4) ∧
    (cellOf (data ⟨[⟨"1", "Star"⟩],
        [⟨"u1", "1", Cell.num 4⟩, ⟨"u2", "1", Cell.invalid⟩]⟩) "u3" "Star"
      = none) := by
  refine ⟨?_, ?_, ?_⟩
  · exact (c5_pivot_table_structure _ "u1" "Star").1.2
      ⟨⟨"u1", "1", some 4, "Star"⟩, by decide, by decide, by decide⟩
  · exact (c5_pivot_table_structure _ "u1" "Star").2.2.2.1 4 (by decide)
  · exact (c5_pivot_table_structure _ "u3" "Star").2.2.1 (by decide)

/-! ### Claim theorems: invariants of `get_recommendations` -/


/-- C8: no recommended title is one of the selected titles — filtering
the result by membership in the selection leaves nothing. -/
theorem c8_selected_never_recommended (D : Dataset)
    (selected_movies : List String) (n : ℕ) :
    (get_recommendations D selected_movies n).filter
      (fun t => decide (t ∈ selected_movies)) = [] := by
  rw [List.filter_eq_nil_iff]
  intro a ha
  unfold get_recommendations at ha
  simp only at ha
  obtain ⟨p, hp, hpa⟩ := List.mem_map.1 ha
  have hp' := List.mem_of_mem_take hp
  have hnot := (List.mem_filter.1 hp').2
  rw [decide_eq_true_eq] at hnot
  rw [decide_eq_true_eq]
  rw [← hpa]
  exact hnot

/-- C9: when none of the selected titles is a column of the pivot table,
every title is skipped, the score series stays empty, and
`get_recommendations` returns the empty list instead of failing. -/
theorem c9_unknown_selection_yields_empty (D : Dataset)
    (selected_movies : List String) (n : ℕ)
    (h : ∀ t ∈ selected_movies, t ∉ matrixColumns (data D)) :
    get_recommendations D selected_movies n = [] := by
  have hfold : ∀ sel : List String,
      (∀ t ∈ sel, t ∉ matrixColumns (data D)) →
      sel.foldl (fun acc movie_title =>
        if movie_title ∈ matrixColumns (data D)
        then seriesAdd acc (corrwith (data D) movie_title)
        else acc) [] = [] := by
    intro sel
    induction sel with
    | nil => intro _; rfl
    | cons t ts ih =>
        intro hsel
        rw [List.foldl_cons,
          if_neg (hsel t (List.mem_cons_self t ts))]
        exact ih fun s hs => hsel s (List.mem_cons_of_mem t hs)
  unfold get_recommendations
  simp only
  rw [hfold selected_movies h]
  simp [sortBy]

/-- C9 witness: in `Dex`, selecting only the unknown title `Z` returns
the empty list. -/
theorem c9_witness :
    (∀ t ∈ ["Z"], t ∉ matrixColumns (data Dex)) ∧
    get_recommendations Dex ["Z"] 5 = [] := by
  have h : ∀ t ∈ ["Z"], t ∉ matrixColumns (data Dex) := by decide
  exact ⟨h, c9_unknown_selection_yields_empty Dex ["Z"] 5 h⟩

/-- C7: the two recommendation computations are pure functions — repeated
invocations agree, and the result depends only on the joined data and the
arguments (there is no hidden or mutable state). -/
theorem c7_deterministic (D D' : Dataset) (sel : List String) (n : ℕ) :
    (get_top_rated_movies D n = get_top_rated_movies D n ∧
     get_recommendations D sel n = get_recommendations D sel n) ∧
    (data D = data D' →
      get_top_rated_movies D n = get_top_rated_movies D' n ∧
      get_recommendations D sel n = get_recommendations D' sel n) := by
  refine ⟨⟨rfl, rfl⟩, fun h => ⟨?_, ?_⟩⟩
  · unfold get_top_rated_movies
    rw [h]
  · unfold get_recommendations
    rw [h]

/-- C7 witness: appending a ratings row with an unmatched `movieId` to
`Dex` leaves the joined data — hence both results — unchanged. -/
theorem c7_witness :
    data Dex = data ⟨Dex.movies,
      Dex.ratings ++ [⟨"u9", "99", Cell.num 5⟩]⟩ ∧
    get_top_rated_movies Dex 5 = get_top_rated_movies
      ⟨Dex.movies, Dex.ratings ++ [⟨"u9", "99", Cell.num 5⟩]⟩ 5 ∧
    get_recommendations Dex ["A"] 5 = get_recommendations
      ⟨Dex.movies, Dex.ratings ++ [⟨"u9", "99", Cell.num 5⟩]⟩ ["A"] 5 := by
  have h : data Dex = data ⟨Dex.movies,
      Dex.ratings ++ [⟨"u9", "99", Cell.num 5⟩]⟩ := by decide
  exact ⟨h, (c7_deterministic Dex _ ["A"] 5).2 h⟩

/-! ### Claim theorems: the `/recommend` handler and the load/coerce steps -/


/-- C3: the handler serves the popularity ranking exactly when every
submitted movie field is empty or missing, and otherwise serves
item-based recommendations computed from exactly the non-empty fields. -/
theorem c3_handler_dispatch (D : Dataset) (m1 m2 m3 : Option String) :
    (nonEmptyFields [m1, m2, m3] = [] →
      recommend D m1 m2 m3 = get_top_rated_movies D 5) ∧
    (nonEmptyFields [m1, m2, m3] ≠ [] →
      recommend D m1 m2 m3 =
        get_recommendations D (nonEmptyFields [m1, m2, m3]) 5) := by
  constructor
  · intro h
    unfold recommend
    rw [if_pos h]
  · intro h
    unfold recommend
    rw [if_neg h]

/-- C3 witness: with all fields empty or missing the handler returns the
ranking; with one non-empty field it returns recommendations for exactly
that field. -/
theorem c3_witness :
    (nonEmptyFields [none, some "", none] = [] ∧
      recommend Dex none (some "") none = get_top_rated_movies Dex 5) ∧
    (nonEmptyFields [some "A", none, none] ≠ [] ∧
      recommend Dex (some "A") none none =
        get_recommendations Dex (nonEmptyFields [some "A", none, none]) 5) := by
  constructor
  · exact ⟨by decide, (c3_handler_dispatch Dex none (some "") none).1 (by decide)⟩
  · exact ⟨by decide, (c3_handler_dispatch Dex (some "A") none none).2 (by decide)⟩

/-- C6 counterexample: the claim says the program has no failure recovery
beyond type coercion — "no exception-handling fallbacks" — but app.py
lines 12-15 catch `UnicodeDecodeError` and re-read the file as cp932: in
an environment where utf-8 decoding fails, the load still succeeds. -/
theorem c6_counterexample :
    cp932Env "utf-8" = ReadResult.unicodeDecodeError ∧
    loadMovies cp932Env = ReadResult.ok [⟨"1", "A"⟩] := by
  exact ⟨rfl, rfl⟩

/-- C6 (amended): the failure recovery logic is the numeric coercion of
the rating column (invalid values become missing) together with exactly
one exception-handling fallback — on a `UnicodeDecodeError` the movies
file is re-read with the cp932 encoding. -/
theorem c6_recovery_logic (readCsv : String → ReadResult (List MovieRow))
    (t : List MovieRow) (q : ℚ) :
    (readCsv "utf-8" = ReadResult.ok t →
      loadMovies readCsv = ReadResult.ok t) ∧
    (readCsv "utf-8" = ReadResult.unicodeDecodeError →
      loadMovies readCsv = readCsv "cp932") ∧
    toNumericCoerce (Cell.num q) = some q ∧
    toNumericCoerce Cell.invalid = none := by
  refine ⟨?_, ?_, rfl, rfl⟩
  · intro h
    unfold loadMovies
    rw [h]
  · intro h
    unfold loadMovies
    rw [h]

/-- C6 witness: the recovery behaviour at the concrete environment
`cp932Env` and at a concrete rating cell. -/
theorem c6_witness :
    (loadMovies cp932Env = cp932Env "cp932") ∧
    toNumericCoerce (Cell.num 3) = some 3 := by
  exact ⟨(c6_recovery_logic cp932Env [] 3).2.1 rfl, rfl⟩

/-! ### Order lemmas for `strLe` and `sortedKeys` -/

theorem lexLe_total (l1 l2 : List Char) :
    lexLe l1 l2 = true ∨ lexLe l2 l1 = true := by
  induction l1 generalizing l2 with
  | nil => left; rfl
  | cons a as ih =>
      cases l2 with
      | nil => right; rfl
      | cons b bs =>
          rcases Nat.lt_trichotomy a.toNat b.toNat with h | h | h
          · left; simp [lexLe, h]
          · have h1 : ¬ a.toNat < b.toNat := by omega
            have h2 : ¬ b.toNat < a.toNat := by omega
            rcases ih bs with hx | hx
            · left; simp [lexLe, h1, h2, hx]
            · right; simp [lexLe, h1, h2, hx]
          · have h1 : ¬ a.toNat < b.toNat := by omega
            right; simp [lexLe, h]

theorem lexLe_trans : ∀ {l1 l2 l3 : List Char},
    lexLe l1 l2 = true → lexLe l2 l3 = true → lexLe l1 l3 = true
  | [], _, _, _, _ => rfl
  | _ :: _, [], _, h, _ => by simp [lexLe] at h
  | _ :: _, _ :: _, [], _, h => by simp [lexLe] at h
  | a :: as, b :: bs, c :: cs, h1, h2 => by
      rcases Nat.lt_trichotomy a.toNat b.toNat with hab | hab | hab
      · rcases Nat.lt_trichotomy b.toNat c.toNat with hbc | hbc | hbc
        · have : a.toNat < c.toNat := by omega
          simp [lexLe, this]
        · have : a.toNat < c.toNat := by omega
          simp [lexLe, this]
        · have e : ¬ b.toNat < c.toNat := by omega
          simp [lexLe, e, hbc] at h2
      · rcases Nat.lt_trichotomy b.toNat c.toNat with hbc | hbc | hbc
        · have : a.toNat < c.toNat := by omega
          simp [lexLe, this]
        · have e1 : ¬ a.toNat < b.toNat := by omega
          have e2 : ¬ b.toNat < a.toNat := by omega
          have e3 : ¬ b.toNat < c.toNat := by omega
          have e4 : ¬ c.toNat < b.toNat := by omega
          have e5 : ¬ a.toNat < c.toNat := by omega
          have e6 : ¬ c.toNat < a.toNat := by omega
          simp only [lexLe, e1, e2, if_neg, if_false] at h1
          simp only [lexLe, e3, e4, if_neg, if_false] at h2
          simp only [lexLe, e5, e6, if_neg, if_false]
          exact lexLe_trans h1 h2
        · have e : ¬ b.toNat < c.toNat := by omega
          simp [lexLe, e, hbc] at h2
      · have e : ¬ a.toNat < b.toNat := by omega
        simp [lexLe, e, hab] at h1

theorem strLe_total (a b : String) : strLe a b = true ∨ strLe b a = true :=
  lexLe_total a.data b.data

theorem strLe_trans {a b c : String} (h1 : strLe a b = true)
    (h2 : strLe b c = true) : strLe a c = true :=
  lexLe_trans h1 h2

theorem pairwise_insertBy {le : α → α → Bool}
    (htot : ∀ a b, le a b = true ∨ le b a = true)
    (htrans : ∀ {a b c}, le a b = true → le b c = true → le a c = true)
    (a : α) {l : List α} (h : l.Pairwise fun x y => le x y = true) :
    (insertBy le a l).Pairwise fun x y => le x y = true := by
  induction l with
  | nil => simp [insertBy]
  | cons b bs ih =>
      rcases List.pairwise_cons.1 h with ⟨hb, hbs⟩
      by_cases hab : le a b = true
      · rw [insertBy, if_pos hab]
        refine List.pairwise_cons.2 ⟨?_, h⟩
        intro x hx
        rcases List.mem_cons.1 hx with hxb | hxbs
        · rw [hxb]; exact hab
        · exact htrans hab (hb x hxbs)
      · rw [insertBy, if_neg hab]
        refine List.pairwise_cons.2 ⟨?_, ih hbs⟩
        intro x hx
        rcases (mem_insertBy le a x bs).1 hx with hxa | hxbs
        · rw [hxa]
          rcases htot a b with h1 | h1
          · exact absurd h1 hab
          · exact h1
        · exact hb x hxbs

theorem pairwise_sortBy {le : α → α → Bool}
    (htot : ∀ a b, le a b = true ∨ le b a = true)
    (htrans : ∀ {a b c}, le a b = true → le b c = true → le a c = true)
    (l : List α) :
    (sortBy le l).Pairwise fun x y => le x y = true := by
  induction l with
  | nil => simp [sortBy]
  | cons a as ih => exact pairwise_insertBy htot htrans a ih

theorem sortBy_eq_self {le : α → α → Bool} {l : List α}
    (h : l.Pairwise fun x y => le x y = true) : sortBy le l = l := by
  induction l with
  | nil => rfl
  | cons a as ih =>
      rcases List.pairwise_cons.1 h with ⟨ha, has⟩
      rw [sortBy, ih has]
      cases as with
      | nil => rfl
      | cons b bs => rw [insertBy, if_pos (ha b (List.mem_cons_self b bs))]

theorem insertBy_perm (le : α → α → Bool) (a : α) (l : List α) :
    List.Perm (insertBy le a l) (a :: l) := by
  induction l with
  | nil => exact List.Perm.refl _
  | cons b bs ih =>
      by_cases h : le a b = true
      · rw [insertBy, if_pos h]
      · rw [insertBy, if_neg h]
        exact (ih.cons b).trans (List.Perm.swap a b bs)

theorem sortBy_perm (le : α → α → Bool) (l : List α) :
    List.Perm (sortBy le l) l := by
  induction l with
  | nil => exact List.Perm.refl _
  | cons a as ih => exact (insertBy_perm le a (sortBy le as)).trans (ih.cons a)

theorem sortedKeys_pairwise (l : List String) :
    (sortedKeys l).Pairwise fun x y => strLe x y = true :=
  pairwise_sortBy strLe_total strLe_trans _

theorem sortedKeys_nodup (l : List String) : (sortedKeys l).Nodup :=
  ((sortBy_perm strLe l.dedup).nodup_iff).2 l.nodup_dedup

theorem sortedKeys_idem (l : List String) :
    sortedKeys (sortedKeys l) = sortedKeys l := by
  have h0 : sortedKeys (sortedKeys l) = sortBy strLe (sortedKeys l).dedup := rfl
  rw [h0, List.dedup_eq_self.2 (sortedKeys_nodup l)]
  exact sortBy_eq_self (sortedKeys_pairwise l)

theorem union_eq_right {l l' : List String} (h : ∀ a ∈ l, a ∈ l') :
    l ∪ l' = l' := by
  induction l with
  | nil => exact List.nil_union l'
  | cons a as ih =>
      rw [List.cons_union, ih fun b hb => h b (List.mem_cons_of_mem a hb)]
      exact List.insert_of_mem (h a (List.mem_cons_self a as))

theorem sortedKeys_append_self (l : List String) :
    sortedKeys (sortedKeys l ++ sortedKeys l) = sortedKeys l := by
  have h0 : sortedKeys (sortedKeys l ++ sortedKeys l) =
      sortBy strLe (sortedKeys l ++ sortedKeys l).dedup := rfl
  rw [h0, List.dedup_append, List.dedup_eq_self.2 (sortedKeys_nodup l)]
  rw [union_eq_right fun a ha => ha]
  exact sortBy_eq_self (sortedKeys_pairwise l)

/-! ### Lemmas on the score-series fold -/

theorem foldl_if_filter {p : α → Prop} [DecidablePred p] (g : β → α → β) :
    ∀ (l : List α) (b : β),
      l.foldl (fun acc a => if p a then g acc a else acc) b =
      (l.filter fun a => decide (p a)).foldl g b := by
  intro l
  induction l with
  | nil => intro b; rfl
  | cons a as ih =>
      intro b
      by_cases h : p a
      · simp [List.foldl_cons, List.filter_cons, h, ih]
      · simp [List.foldl_cons, List.filter_cons, h, ih]

theorem corrwith_keys (d : List (DataRow (Option ℚ))) (t : String) :
    (corrwith d t).map Prod.fst = matrixColumns d := by
  unfold corrwith
  rw [List.map_map]
  exact List.map_id _

theorem seriesGet_map (g : String → Option ℝ) (l : List String) (k : String)
    (hk : k ∈ l) :
    seriesGet (l.map fun s => (s, g s)) k = g k := by
  induction l with
  | nil => cases hk
  | cons a as ih =>
      by_cases h : a = k
      · subst h
        unfold seriesGet
        simp [List.find?]
      · rcases List.mem_cons.1 hk with hk' | hk'
        · exact absurd hk'.symm h
        · unfold seriesGet at ih ⊢
          rw [List.map_cons, List.find?]
          have hbeq : ((a, g a).1 == k) = false := by
            simp [h]
          rw [hbeq]
          exact ih hk'

theorem sortedKeys_matrixColumns (d : List (DataRow (Option ℚ))) :
    sortedKeys (matrixColumns d) = matrixColumns d :=
  sortedKeys_idem _

theorem seriesAdd_nil_corrwith (d : List (DataRow (Option ℚ))) (t : String) :
    seriesAdd [] (corrwith d t) =
      (matrixColumns d).map fun k =>
        (k, optAdd none (pearson (commonPairs d k t))) := by
  unfold seriesAdd
  rw [List.map_nil, List.nil_append, corrwith_keys, sortedKeys_matrixColumns]
  apply List.map_congr_left
  intro k hk
  have h2 : seriesGet (corrwith d t) k = pearson (commonPairs d k t) :=
    seriesGet_map (fun s => pearson (commonPairs d s t)) (matrixColumns d) k hk
  rw [show seriesGet [] k = none from rfl, h2]

theorem seriesAdd_map_corrwith (d : List (DataRow (Option ℚ)))
    (t : String) (g : String → Option ℝ) :
    seriesAdd ((matrixColumns d).map fun k => (k, g k)) (corrwith d t) =
      (matrixColumns d).map fun k =>
        (k, optAdd (g k) (pearson (commonPairs d k t))) := by
  unfold seriesAdd
  rw [corrwith_keys, List.map_map]
  rw [show (Prod.fst ∘ fun k => (k, g k)) = id from rfl, List.map_id]
  rw [show matrixColumns d ++ matrixColumns d =
      sortedKeys ((d.filter fun r => r.rating.isSome).map (·.title)) ++
      sortedKeys ((d.filter fun r => r.rating.isSome).map (·.title)) from rfl]
  rw [sortedKeys_append_self]
  apply List.map_congr_left
  intro k hk
  have h1 : seriesGet ((matrixColumns d).map fun s => (s, g s)) k = g k :=
    seriesGet_map g (matrixColumns d) k hk
  have h2 : seriesGet (corrwith d t) k = pearson (commonPairs d k t) :=
    seriesGet_map (fun s => pearson (commonPairs d s t)) (matrixColumns d) k hk
  rw [h1, h2]

theorem foldl_seriesAdd_corrwith (d : List (DataRow (Option ℚ))) :
    ∀ (ts : List String) (g : String → Option ℝ),
      ts.foldl (fun acc t => seriesAdd acc (corrwith d t))
        ((matrixColumns d).map fun k => (k, g k)) =
      (matrixColumns d).map fun k =>
        (k, ts.foldl (fun a t => optAdd a (pearson (commonPairs d k t)))
          (g k)) := by
  intro ts
  induction ts with
  | nil => intro g; rfl
  | cons t ts ih =>
      intro g
      rw [List.foldl_cons, seriesAdd_map_corrwith d t g,
        ih fun k => optAdd (g k) (pearson (commonPairs d k t))]
      rfl

theorem foldl_optAdd_some (vs : List (Option ℝ)) :
    ∀ (a : ℝ), vs.foldl optAdd (some a) =
      some (a + (vs.map fun v => v.getD 0).sum) := by
  induction vs with
  | nil => intro a; simp
  | cons v vs ih =>
      intro a
      rw [List.foldl_cons]
      have h0 : optAdd (some a) v = some (a + v.getD 0) := by
        cases v <;> rfl
      rw [h0, ih]
      rw [List.map_cons, List.sum_cons, add_assoc]

theorem foldl_optAdd_none (vs : List (Option ℝ)) :
    vs.foldl optAdd none =
      if vs.all Option.isNone then none
      else some ((vs.map fun v => v.getD 0).sum) := by
  induction vs with
  | nil => rfl
  | cons v vs ih =>
      cases v with
      | none =>
          rw [List.foldl_cons, show optAdd none none = none from rfl, ih]
          simp [List.all_cons]
      | some b =>
          rw [List.foldl_cons, show optAdd none (some b) = some (0 + b) from rfl]
          rw [foldl_optAdd_some vs (0 + b)]
          simp [List.all_cons, zero_add, add_assoc]

/-- Helper: `get_recommendations` coincides with its amended description
for all inputs. -/
theorem recs_eq_amendedForm (D : Dataset) (sel : List String) (n : ℕ) :
    get_recommendations D sel n = get_recommendations_amended D sel n := by
  unfold get_recommendations get_recommendations_amended
  simp only
  rw [foldl_if_filter (fun acc t => seriesAdd acc (corrwith (data D) t))]
  cases hv : sel.filter fun t => decide (t ∈ matrixColumns (data D)) with
  | nil => rw [if_pos rfl, List.foldl_nil]
  | cons v vs =>
      rw [if_neg (List.cons_ne_nil v vs)]
      rw [List.foldl_cons, seriesAdd_nil_corrwith (data D) v]
      rw [foldl_seriesAdd_corrwith (data D) vs
        fun k => optAdd none (pearson (commonPairs (data D) k v))]
      have hs : ((matrixColumns (data D)).map fun k =>
          (k, vs.foldl
            (fun a t => optAdd a (pearson (commonPairs (data D) k t)))
            (optAdd none (pearson (commonPairs (data D) k v))))) =
          (matrixColumns (data D)).map fun k =>
            (k, if (v :: vs).all
                  fun t => (pearson (commonPairs (data D) k t)).isNone
                then none
                else some (((v :: vs).map fun t =>
                  (pearson (commonPairs (data D) k t)).getD 0).sum)) := by
        apply List.map_congr_left
        intro k _
        have h1 : vs.foldl
            (fun a t => optAdd a (pearson (commonPairs (data D) k t)))
            (optAdd none (pearson (commonPairs (data D) k v))) =
            ((v :: vs).map fun t =>
              pearson (commonPairs (data D) k t)).foldl optAdd none := by
          rw [List.foldl_map, List.foldl_cons]
        rw [h1, foldl_optAdd_none]
        simp [List.all_map, List.map_map, Function.comp_def]
      rw [hs]

/-! ### Concrete evaluation of the pipelines on `Dex` -/

theorem matrixColumns_Dex : matrixColumns (data Dex) = ["A", "B", "C"] := by
  decide

theorem matrixRows_Dex : matrixRows (data Dex) = ["u1", "u2"] := by
  decide

theorem cell_u1A : cellOf (data Dex) "u1" "A" = some 1 := by
  unfold cellOf
  rw [show userRatings (data Dex) "u1" "A" = [1] from by decide]
  norm_num

theorem cell_u2A : cellOf (data Dex) "u2" "A" = some 2 := by
  unfold cellOf
  rw [show userRatings (data Dex) "u2" "A" = [2] from by decide]
  norm_num

theorem cell_u1B : cellOf (data Dex) "u1" "B" = some 2 := by
  unfold cellOf
  rw [show userRatings (data Dex) "u1" "B" = [2] from by decide]
  norm_num

theorem cell_u2B : cellOf (data Dex) "u2" "B" = some 1 := by
  unfold cellOf
  rw [show userRatings (data Dex) "u2" "B" = [1] from by decide]
  norm_num

theorem cell_u1C : cellOf (data Dex) "u1" "C" = some 3 := by
  unfold cellOf
  rw [show userRatings (data Dex) "u1" "C" = [3] from by decide]
  norm_num

theorem cell_u2C : cellOf (data Dex) "u2" "C" = some 3 := by
  unfold cellOf
  rw [show userRatings (data Dex) "u2" "C" = [3] from by decide]
  norm_num

theorem cp_AA : commonPairs (data Dex) "A" "A" = [(1, 1), (2, 2)] := by
  unfold commonPairs
  rw [matrixRows_Dex]
  simp [List.filterMap_cons, cell_u1A, cell_u2A]

theorem cp_BA : commonPairs (data Dex) "B" "A" = [(2, 1), (1, 2)] := by
  unfold commonPairs
  rw [matrixRows_Dex]
  simp [List.filterMap_cons, cell_u1A, cell_u2A, cell_u1B, cell_u2B]

theorem cp_CA : commonPairs (data Dex) "C" "A" = [(3, 1), (3, 2)] := by
  unfold commonPairs
  rw [matrixRows_Dex]
  simp [List.filterMap_cons, cell_u1A, cell_u2A, cell_u1C, cell_u2C]

theorem pearson_AA : pearson (commonPairs (data Dex) "A" "A") = some 1 := by
  rw [cp_AA]
  norm_num [pearson, corrNum, corrDenX, corrDenY, Real.sqrt_one]

theorem pearson_BA : pearson (commonPairs (data Dex) "B" "A") = some (-1) := by
  rw [cp_BA]
  norm_num [pearson, corrNum, corrDenX, corrDenY, Real.sqrt_one]

theorem pearson_CA : pearson (commonPairs (data Dex) "C" "A") = none := by
  rw [cp_CA]
  norm_num [pearson, corrDenX]

theorem sort_code_Dex :
    sortBy (fun a b => scoreGe a.2 b.2)
      [("A", some (1 : ℝ)), ("B", some (-1)), ("C", none)] =
    [("A", some (1 : ℝ)), ("B", some (-1)), ("C", none)] := by
  have g1 : scoreGe (some ((-1) : ℝ)) none = true := rfl
  have g2 : scoreGe (some (1 : ℝ)) (some (-1)) = true := by
    have h0 : scoreGe (some (1 : ℝ)) (some (-1)) =
        decide ((-1 : ℝ) ≤ 1) := rfl
    rw [h0]
    exact decide_eq_true (by norm_num)
  simp [sortBy, insertBy, g1, g2]

theorem sort_spec_Dex :
    sortBy (fun a b => scoreGe a.2 b.2)
      [("A", some (1 : ℝ)), ("B", some (-1)), ("C", some 0)] =
    [("A", some (1 : ℝ)), ("C", some 0), ("B", some (-1))] := by
  have g3 : scoreGe (some ((-1) : ℝ)) (some 0) = false := by
    have h0 : scoreGe (some ((-1) : ℝ)) (some 0) =
        decide ((0 : ℝ) ≤ -1) := rfl
    rw [h0]
    exact decide_eq_false (by norm_num)
  have g4 : scoreGe (some (1 : ℝ)) (some 0) = true := by
    have h0 : scoreGe (some (1 : ℝ)) (some 0) =
        decide ((0 : ℝ) ≤ 1) := rfl
    rw [h0]
    exact decide_eq_true (by norm_num)
  simp [sortBy, insertBy, g3, g4]

theorem recs_amended_Dex : get_recommendations_amended Dex ["A"] 1 = ["B"] := by
  unfold get_recommendations_amended
  simp only
  rw [show (["A"].filter fun t => decide (t ∈ matrixColumns (data Dex))) =
    ["A"] from by decide]
  rw [if_neg (List.cons_ne_nil "A" [])]
  rw [matrixColumns_Dex]
  have hscores : (["A", "B", "C"].map fun k =>
      (k, if ["A"].all fun t => (pearson (commonPairs (data Dex) k t)).isNone
          then none
          else some ((["A"].map fun t =>
            (pearson (commonPairs (data Dex) k t)).getD 0).sum))) =
      [("A", some (1 : ℝ)), ("B", some (-1)), ("C", none)] := by
    simp [pearson_AA, pearson_BA, pearson_CA]
  rw [hscores, sort_code_Dex]
  simp [List.filter]

theorem recs_code_Dex : get_recommendations Dex ["A"] 1 = ["B"] := by
  rw [recs_eq_amendedForm]
  exact recs_amended_Dex

theorem recs_spec_Dex : get_recommendations_spec Dex ["A"] 1 = ["C"] := by
  unfold get_recommendations_spec
  simp only
  rw [show (["A"].filter fun t => decide (t ∈ matrixColumns (data Dex))) =
    ["A"] from by decide]
  rw [if_neg (List.cons_ne_nil "A" [])]
  rw [matrixColumns_Dex]
  have hscores : (["A", "B", "C"].map fun k =>
      (k, some ((["A"].map fun t =>
        (pearson (commonPairs (data Dex) k t)).getD 0).sum))) =
      [("A", some (1 : ℝ)), ("B", some (-1)), ("C", some 0)] := by
    simp [pearson_AA, pearson_BA, pearson_CA]
  rw [hscores, sort_spec_Dex]
  simp [List.filter]

/-! ### Claim theorems for C2 -/


/-- C2 counterexample: on `Dex` with `A` selected, the code returns `B`
(the anti-correlated title) first, while the claimed pipeline — missing
correlation entries counted as 0 — would return `C` first, because `C`,
whose correlation with `A` is undefined, would score 0 and outrank `B`
with score −1.  In the code `C` keeps a missing score, which pandas
sorts last. -/
theorem c2_counterexample :
    get_recommendations Dex ["A"] 1 ≠ get_recommendations_spec Dex ["A"] 1 := by
  rw [recs_code_Dex, recs_spec_Dex]
  decide

/-- C2 (amended): `get_recommendations` computes the claimed pipeline with
one correction — an entry missing in every valid selected title's
correlation series stays missing (it is not counted as 0) and missing
scores sort after all numeric scores; entries missing in only some
series are still counted as 0 there. -/
theorem c2_recommendations_amended (D : Dataset)
    (selected_movies : List String) (n : ℕ) :
    get_recommendations D selected_movies n =
      get_recommendations_amended D selected_movies n :=
  recs_eq_amendedForm D selected_movies n

end MovieRec
